import Mathlib

/-!
Shallow embedding of the js-types validator combinator library (src/index.js).

JS values are modelled by `JSVal`; JS numbers (IEEE doubles) by `JSNum`, with
the finite values taken in `ℚ` (no claim below depends on binary rounding).
Code that can throw (symbol stringification, configuration setters) returns
`Except String _`; a `Result` payload returned to the caller is `JSResult`.
-/

/-- JS numbers: NaN, the two infinities, and finite values (modelled in ℚ). -/
inductive JSNum where
  | nan
  | posInf
  | negInf
  | finite (q : ℚ)
deriving DecidableEq

/-- JS values, as far as the validators can observe them. -/
inductive JSVal where
  | undef
  | null
  | bool (b : Bool)
  | num (n : JSNum)
  | str (s : String)
  | sym (desc : String)
  | arr (elems : List JSVal)
  | obj (fields : List (String × JSVal))

/-- The `{error, value}` payload every `validate` call returns (src/index.js
`success`/`typeError`): both fields hold arbitrary JS values, with `null`
standing for "absent". -/
structure JSResult where
  error : JSVal
  value : JSVal

def JSVal.isNull : JSVal → Bool
  | .null => true
  | _ => false

def isUndefB : JSVal → Bool
  | .undef => true
  | _ => false

def isNullB : JSVal → Bool
  | .null => true
  | _ => false

def isArrB : JSVal → Bool
  | .arr _ => true
  | _ => false

/-- The strict comparison `payload === Infinity` of src/index.js line 267:
true exactly for the number +Infinity. -/
def isPosInfV : JSVal → Bool
  | .num .posInf => true
  | _ => false

/-- `typeof` for the modelled values (`typeof null` is `"object"` in JS). -/
def typeofStr : JSVal → String
  | .undef => "undefined"
  | .null => "object"
  | .bool _ => "boolean"
  | .num _ => "number"
  | .str _ => "string"
  | .sym _ => "symbol"
  | .arr _ => "object"
  | .obj _ => "object"

def isNaNnum : JSNum → Bool
  | .nan => true
  | _ => false

/-- `getType` applied to a value already known to be a number: `"NaN"` for
NaN, otherwise `"number"` (infinities are numbers). -/
def getTypeNum (n : JSNum) : String :=
  if isNaNnum n then "NaN" else "number"

/-- JS `<` on numbers: false whenever either side is NaN. -/
def jsLtB : JSNum → JSNum → Bool
  | .nan, _ => false
  | _, .nan => false
  | .negInf, .negInf => false
  | .negInf, _ => true
  | _, .negInf => false
  | .posInf, _ => false
  | _, .posInf => true
  | .finite x, .finite y => decide (x < y)

/-- JS `>` on numbers. -/
def jsGtB (a b : JSNum) : Bool := jsLtB b a

/-- JS `<=` on numbers: false whenever either side is NaN, else `¬ (b < a)`. -/
def jsLeB : JSNum → JSNum → Bool
  | .nan, _ => false
  | _, .nan => false
  | a, b => !(jsLtB b a)

/-- JS `>=` on numbers. -/
def jsGeB (a b : JSNum) : Bool := jsLeB b a

/-- Numeric coercion of a possibly-null stored bound, as in the JS comparison
`this._minLength >= this._maxLength` where a field may still be null:
`Number(null) = 0`. -/
def optNum (o : Option JSNum) : JSNum := o.getD (.finite 0)

def isWs (c : Char) : Bool := c = ' ' || c = '\t' || c = '\n' || c = '\r'

/-- Code points 48–57, the check used by `checkForString` (src/index.js 161). -/
def isDigitCode (c : Char) : Bool := 48 ≤ c.toNat && c.toNat ≤ 57

def digitsToNat (ds : List Char) : ℕ :=
  ds.foldl (fun acc c => acc * 10 + (c.toNat - 48)) 0

/-- Value of `d1 . d2 e e`-shaped decimal literal parts. -/
def buildRat (d1 d2 : List Char) (e : ℤ) : ℚ :=
  ((digitsToNat d1 : ℚ) + (digitsToNat d2 : ℚ) / (10 : ℚ) ^ d2.length) * (10 : ℚ) ^ e

def negNum : JSNum → JSNum
  | .nan => .nan
  | .posInf => .negInf
  | .negInf => .posInf
  | .finite q => .finite (-q)

/-- Optional exponent part of a decimal literal; an `e` not followed by
digits is not part of the parsed prefix (parseFloat keeps the shorter
valid prefix). Returns the exponent and the unconsumed rest. -/
def parseExpTail (orig rest : List Char) : ℤ × List Char :=
  match rest with
  | '+' :: r2 =>
      let ds := r2.takeWhile isDigitCode
      if ds.isEmpty then (0, orig) else ((digitsToNat ds : ℤ), r2.dropWhile isDigitCode)
  | '-' :: r2 =>
      let ds := r2.takeWhile isDigitCode
      if ds.isEmpty then (0, orig) else (-(digitsToNat ds : ℤ), r2.dropWhile isDigitCode)
  | _ =>
      let ds := rest.takeWhile isDigitCode
      if ds.isEmpty then (0, orig) else ((digitsToNat ds : ℤ), rest.dropWhile isDigitCode)

def parseExpOpt (cs : List Char) : ℤ × List Char :=
  match cs with
  | 'e' :: rest => parseExpTail cs rest
  | 'E' :: rest => parseExpTail cs rest
  | _ => (0, cs)

/-- Longest valid unsigned decimal-literal prefix: `Infinity`, or digits with
an optional dot part and an optional exponent. `none` when no prefix parses. -/
def parseUnsigned (cs : List Char) : Option (JSNum × List Char) :=
  if "Infinity".data.isPrefixOf cs then some (.posInf, cs.drop 8)
  else
    let d1 := cs.takeWhile isDigitCode
    let r1 := cs.dropWhile isDigitCode
    match r1 with
    | '.' :: t =>
        let d2 := t.takeWhile isDigitCode
        let r2 := t.dropWhile isDigitCode
        if d1.isEmpty && d2.isEmpty then none
        else
          let er := parseExpOpt r2
          some (.finite (buildRat d1 d2 er.1), er.2)
    | _ =>
        if d1.isEmpty then none
        else
          let er := parseExpOpt r1
          some (.finite (buildRat d1 [] er.1), er.2)

def parseNumCore (cs : List Char) : Option (JSNum × List Char) :=
  match cs with
  | '+' :: rest => parseUnsigned rest
  | '-' :: rest => (parseUnsigned rest).map (fun p => (negNum p.1, p.2))
  | _ => parseUnsigned cs

/-- `parseFloat` on a string: skip leading whitespace, take the longest valid
decimal prefix, NaN when there is none. -/
def parseFloatStr (s : String) : JSNum :=
  match parseNumCore (s.data.dropWhile isWs) with
  | some p => p.1
  | none => .nan

/-- `ToNumber` on a string (used by the global `isNaN`): trim, empty is 0,
otherwise the whole remainder must be one decimal literal. Hex/octal/binary
literal forms are not modelled; no validator path below depends on them. -/
def strToNumber (s : String) : JSNum :=
  let cs := ((s.data.dropWhile isWs).reverse.dropWhile isWs).reverse
  if cs.isEmpty then .finite 0
  else
    match parseNumCore cs with
    | some p => if p.2.isEmpty then p.1 else .nan
    | none => .nan

/-- Decimal printing of a rational: exact when the denominator divides a
power of ten (true of every value a JS double prints as a plain decimal;
the validators below only ever build such values from decimal literals).
The final arm is a fallback for other denominators, never reached by them.
Exponent display for extreme magnitudes is not modelled. -/
def ratDecimalString (q : ℚ) : String :=
  let sign := if q < 0 then "-" else ""
  let n := q.num.natAbs
  let d := q.den
  match (List.range (d + 1)).find? (fun k => 10 ^ k % d = 0) with
  | some k =>
      let scaled := n * 10 ^ k / d
      let ip := scaled / 10 ^ k
      let fp := scaled % 10 ^ k
      if fp = 0 then sign ++ toString ip
      else
        let fs := toString fp
        sign ++ toString ip ++ "." ++ (String.mk (List.replicate (k - fs.length) '0')) ++ fs
  | none => sign ++ toString n ++ "." ++ toString d

/-- `ToString` for a JS number: the forms compared against by `getType`. -/
def numToString : JSNum → String
  | .nan => "NaN"
  | .posInf => "Infinity"
  | .negInf => "-Infinity"
  | .finite q => ratDecimalString q

mutual

/-- `ToString` of a value, as invoked by the template literal on line 22 of
src/index.js. Throws a TypeError on symbols (and on arrays whose join meets
a symbol), exactly as in JS. -/
def jsToString : JSVal → Except String String
  | .undef => .ok "undefined"
  | .null => .ok "null"
  | .bool b => .ok (if b then "true" else "false")
  | .num n => .ok (numToString n)
  | .str s => .ok s
  | .sym _ => .error "TypeError: Cannot convert a Symbol value to a string"
  | .arr xs =>
      match elemStrings xs with
      | .ok parts => .ok (String.intercalate "," parts)
      | .error e => .error e
  | .obj _ => .ok "[object Object]"

/-- `Array.prototype.join(",")` element conversion: undefined and null join
as the empty string, the rest by `ToString`. -/
def elemStrings : List JSVal → Except String (List String)
  | [] => .ok []
  | x :: rest =>
      match x with
      | .undef =>
          match elemStrings rest with
          | .ok tail => .ok ("" :: tail)
          | .error e => .error e
      | .null =>
          match elemStrings rest with
          | .ok tail => .ok ("" :: tail)
          | .error e => .error e
      | _ =>
          match jsToString x with
          | .error e => .error e
          | .ok s =>
              match elemStrings rest with
              | .ok tail => .ok (s :: tail)
              | .error e => .error e
end

/-- `ToNumber` of a value, the coercion performed by the global `isNaN`.
Objects and arrays coerce through their string form. -/
def toNumberCoerce : JSVal → Except String JSNum
  | .undef => .ok .nan
  | .null => .ok (.finite 0)
  | .bool b => .ok (.finite (if b then 1 else 0))
  | .num n => .ok n
  | .str s => .ok (strToNumber s)
  | .sym _ => .error "TypeError: Cannot convert a Symbol value to a number"
  | .arr xs =>
      match jsToString (.arr xs) with
      | .ok s => .ok (strToNumber s)
      | .error e => .error e
  | .obj fields =>
      match jsToString (.obj fields) with
      | .ok s => .ok (strToNumber s)
      | .error e => .error e

/-- `getType` (src/index.js 21–40). The first statement stringifies the
value, so a symbol argument throws before any classification happens. -/
def getType (value : JSVal) : Except String String :=
  match jsToString value with
  | .error e => .error e
  | .ok val =>
      match toNumberCoerce value with
      | .error e => .error e
      | .ok n =>
          if isNaNnum n && (val == "NaN") then .ok "NaN"
          else if isUndefB value && (val == "undefined") then .ok "undefined"
          else if isNullB value && (val == "null") then .ok "null"
          else if isArrB value then .ok "array"
          else .ok (typeofStr value)

/-- `success` (src/index.js 58). -/
def success (value : JSVal) : JSResult := { error := .null, value := value }

/-- `typeError` (src/index.js 73). -/
def typeError (expected actual : String) : JSResult :=
  { error := .str ("Expected " ++ expected ++ " but got " ++ actual), value := .null }

/-- `primitiveTypeCheck` (src/index.js 50). -/
def primitiveTypeCheck (value : JSVal) (type : String) : Except String JSResult :=
  match getType value with
  | .error e => .error e
  | .ok actualType =>
      if actualType != type then .ok (typeError type actualType)
      else .ok (success value)

/-- `_any` (src/index.js 114): reduce with `||`; its array-type guard is
statically satisfied at every call site modelled here. -/
def anyB (l : List Bool) : Bool := l.foldl (fun acc val => acc || val) false

/-- `all` (src/index.js 464): reduce with `&&`. -/
def allB (l : List Bool) : Bool := l.foldl (fun acc val => acc && val) true

/-- `checkForString` (src/index.js 154): flag every code point that is
neither a decimal digit nor a dot, count the dots. -/
def checkForString (s : String) : JSResult :=
  let codePointsFlag := s.data.map (fun c => !(isDigitCode c || c = '.'))
  let dotCount := s.data.count '.'
  if anyB codePointsFlag then typeError "number" "string"
  else if dotCount > 1 then typeError "number" "string"
  else success (.str s)

/-- `convertToInteger` (src/index.js 128): `Math.round(parseFloat(value))`,
rounding half toward positive infinity. -/
def roundHalfUp : JSNum → JSNum
  | .nan => .nan
  | .posInf => .posInf
  | .negInf => .negInf
  | .finite q => .finite ((Rat.floor (q + 1 / 2) : ℚ))

/-- `parseFloat` of a value: `ToString` then the string parse. For a number
argument this composite is the identity in JS (number-to-string round-trips),
modelled directly by the first arm. -/
def jsParseFloat : JSVal → Except String JSNum
  | .num n => .ok n
  | v =>
      match jsToString v with
      | .ok s => .ok (parseFloatStr s)
      | .error e => .error e

def convertToInteger (value : JSVal) : Except String JSNum :=
  match jsParseFloat value with
  | .ok n => .ok (roundHalfUp n)
  | .error e => .error e

/-- Decimal places actually used by `toFixed`: the integer part of the
configured count (`ToIntegerOrInfinity`); its RangeError for counts outside
0–100 is not modelled (no claim exercises it). -/
def dpToNat (dp : Option JSNum) : ℕ :=
  match dp with
  | some (.finite q) => (Rat.floor q).toNat
  | _ => 0

def toFixedNum (n : JSNum) (d : ℕ) : JSNum :=
  match n with
  | .nan => .nan
  | .posInf => .posInf
  | .negInf => .negInf
  | .finite q => .finite ((Rat.floor (q * 10 ^ d + 1 / 2) : ℚ) / 10 ^ d)

/-- `convertToFloat` (src/index.js 141): parse, then `toFixed` and re-parse,
which amounts to rounding at the requested number of decimals. -/
def convertToFloat (value : JSVal) (dp : Option JSNum) : Except String JSNum :=
  match jsParseFloat value with
  | .ok n => .ok (toFixedNum n (dpToNat dp))
  | .error e => .error e

/-- `lengthError` (src/index.js 472); a null bound would print as "null". -/
def optNumToString (o : Option JSNum) : String :=
  match o with
  | none => "null"
  | some n => numToString n

def lengthError (type : String) (mnL mxL : Option JSNum) (minFailed : Bool) : JSResult :=
  if minFailed then
    { error := .str (type ++ " must have minimum length of " ++ optNumToString mnL), value := .null }
  else
    { error := .str (type ++ " must have maximum length of " ++ optNumToString mxL), value := .null }

/-- `rangeError` (src/index.js 485). -/
def rangeError (type : String) (mn mx : Option JSNum) (minFailed : Bool) : JSResult :=
  if minFailed then
    { error := .str (type ++ " can have min value of " ++ optNumToString mn ++ "."), value := .null }
  else
    { error := .str (type ++ " can have max value of " ++ optNumToString mx ++ "."), value := .null }

/-- `rangeCheck` (src/index.js 499): min checked before max; each bound is
applied when set and classified as a number. Its typeof-number guard on the
subject is statically satisfied (the subject is a `JSNum`). -/
def rangeCheck (value : JSNum) (mn mx : Option JSNum) (type : String) : JSResult :=
  if mn.isSome && (getTypeNum (optNum mn) == "number") && jsLtB value (optNum mn) then
    rangeError type mn mx true
  else if mx.isSome && (getTypeNum (optNum mx) == "number") && jsGtB value (optNum mx) then
    rangeError type mn mx false
  else success (.num value)

/-- `lengthCheck` (src/index.js 515) over the values array handed to it;
only its length is compared. Its Array.isArray guard is statically
satisfied at every call site modelled here. -/
def lengthCheck (values : List JSVal) (mnL mxL : Option JSNum) (type : String) : JSResult :=
  if mnL.isSome && (getTypeNum (optNum mnL) == "number") && jsLtB (.finite values.length) (optNum mnL) then
    lengthError type mnL mxL true
  else if mxL.isSome && (getTypeNum (optNum mxL) == "number") && jsGtB (.finite values.length) (optNum mxL) then
    lengthError type mnL mxL false
  else success (.arr values)

/-- The validator produced by `primitiveType(type)` (src/index.js 87),
used for `boolean` and `symbol`. -/
def primValidate (type : String) (opt : Bool) (value : JSVal) : Except String JSResult :=
  if opt && (isUndefB value || isNullB value) then .ok (success value)
  else primitiveTypeCheck value type

/-- `AnyState.validate` (src/index.js 220). -/
def anyValidate (opt allowUndefinedNull : Bool) (payload : JSVal) : Except String JSResult :=
  if opt && (isUndefB payload || isNullB payload) then .ok (success payload)
  else
    match getType payload with
    | .error e => .error e
    | .ok actualType =>
        if !allowUndefinedNull && ((actualType == "undefined") || (actualType == "null")) then
          .ok (typeError "any" actualType)
        else .ok (success payload)

/-- `checkForString` is only invoked on payloads classified `"string"`; the
fallback arm for non-string values is unreachable there. -/
def checkForStringV (payload : JSVal) : JSResult :=
  match payload with
  | .str s => checkForString s
  | _ => success payload

/-- `NumberState.validate` (src/index.js 254–300); `this._type` is the
constant `"number"`. -/
def numberValidate (opt : Bool) (mn mx : Option JSNum) (toInt toFl : Bool)
    (dp : Option JSNum) (payload : JSVal) : Except String JSResult :=
  if opt && (isUndefB payload || isNullB payload) then .ok (success payload)
  else
    match getType payload with
    | .error e => .error e
    | .ok t =>
        let strCheck := if t == "string" then checkForStringV payload else success payload
        if !(strCheck.error.isNull) then .ok strCheck
        else if isPosInfV payload then
          .ok { error := .str "Expected number but got Infinity.Invalid!", value := .null }
        else
          match jsParseFloat payload with
          | .error e => .error e
          | .ok parsableNumber =>
              match primitiveTypeCheck (.num parsableNumber) "number" with
              | .error e => .error e
              | .ok value =>
                  if !(value.error.isNull) then .ok value
                  else
                    let rangeResult :=
                      if mn.isSome || mx.isSome then rangeCheck parsableNumber mn mx "number"
                      else success (.num parsableNumber)
                    if !(rangeResult.error.isNull) then .ok rangeResult
                    else
                      let convertedPayload : Except String JSVal :=
                        if toInt then
                          match convertToInteger payload with
                          | .ok n => .ok (.num n)
                          | .error e => .error e
                        else if toFl then
                          match convertToFloat payload dp with
                          | .ok n => .ok (.num n)
                          | .error e => .error e
                        else .ok payload
                      match convertedPayload with
                      | .error e => .error e
                      | .ok conv => .ok (success conv)

/-- `Object.values(payload)` for a string payload: its characters; the
fallback arm for non-string values is unreachable at the call site. -/
def strValues (payload : JSVal) : List JSVal :=
  match payload with
  | .str s => s.data.map (fun c => JSVal.str c.toString)
  | _ => []

/-- `StringState.validate` (src/index.js 362–387); `this._type` is the
constant `"string"`. -/
def stringValidate (opt : Bool) (mnL mxL : Option JSNum) (payload : JSVal) :
    Except String JSResult :=
  if opt && (isUndefB payload || isNullB payload) then .ok (success payload)
  else
    match primitiveTypeCheck payload "string" with
    | .error e => .error e
    | .ok value =>
        if !(value.error.isNull) then .ok value
        else
          let lengthResult :=
            if mnL.isSome || mxL.isSome then lengthCheck (strValues payload) mnL mxL "string"
            else success payload
          if !(lengthResult.error.isNull) then .ok lengthResult
          else .ok (success payload)

/-- A constructed validator tree. Schema entries are modelled as validators:
the duck-type guard of `ObjectState.validate` (src/index.js 433–439) always
passes for trees of this type, so its throw path is unrepresentable. -/
inductive Validator where
  | prim (type : String) (opt : Bool)
  | anyV (opt allowUndefinedNull : Bool)
  | numberV (opt : Bool) (mn mx : Option JSNum) (toInt toFl : Bool) (dp : Option JSNum)
  | stringV (opt : Bool) (mnL mxL : Option JSNum)
  | objectV (opt : Bool) (mnL mxL : Option JSNum) (schema : List (String × Validator))
  | listV (opt : Bool) (mnL mxL : Option JSNum) (elem : Validator)

/-- Property access `payload[key]`: a missing key reads as undefined. -/
def lookupField (fields : List (String × JSVal)) (k : String) : JSVal :=
  match fields.find? (fun p => p.1 == k) with
  | some p => p.2
  | none => .undef

mutual

/-- `validate` dispatched over the validator kinds. The object arm is
`ObjectState.validate` (src/index.js 404–454), the list arm is
`ListState.validate` (src/index.js 548–590); both label `lengthCheck` with
their `this._type` ("object" / "array"). -/
def validateV : Validator → JSVal → Except String JSResult
  | .prim t opt, v => primValidate t opt v
  | .anyV opt aun, v => anyValidate opt aun v
  | .numberV opt mn mx ti tf dp, v => numberValidate opt mn mx ti tf dp v
  | .stringV opt a b, v => stringValidate opt a b v
  | .objectV opt a b schema, v =>
      if opt && (isUndefB v || isNullB v) then .ok (success v)
      else
        match primitiveTypeCheck v "object" with
        | .error e => .error e
        | .ok value =>
            if !(value.error.isNull) then .ok value
            else
              match v with
              | .obj fields =>
                  let lengthResult :=
                    if a.isSome || b.isSome then
                      lengthCheck (fields.map (fun p => JSVal.str p.1)) a b "object"
                    else success v
                  if !(lengthResult.error.isNull) then .ok lengthResult
                  else
                    match runSchema schema fields with
                    | .error e => .error e
                    | .ok ev =>
                        .ok { error := if ev.1.isEmpty then .null else .obj ev.1,
                              value := if ev.2.isEmpty then .null else .obj ev.2 }
              | _ => .ok value
  | .listV opt a b elemV, v =>
      if opt && (isUndefB v || isNullB v) then .ok (success v)
      else
        match primitiveTypeCheck v "array" with
        | .error e => .error e
        | .ok value =>
            if !(value.error.isNull) then .ok value
            else
              match v with
              | .arr items =>
                  let lengthResult :=
                    if a.isSome || b.isSome then lengthCheck items a b "array"
                    else success v
                  if !(lengthResult.error.isNull) then .ok lengthResult
                  else
                    match runList elemV items 0 with
                    | .error e => .error e
                    | .ok res =>
                        if allB (res.map (fun p => p.2.error.isNull)) then
                          .ok { error := .null, value := v }
                        else
                          .ok { error := .obj (res.map (fun p =>
                                  (toString p.1, JSVal.obj [("error", p.2.error), ("value", p.2.value)]))),
                                value := .null }
              | _ => .ok value

/-- The `Object.keys(schema).forEach` loop of `ObjectState.validate`:
schema keys drive the iteration; each failing key is collected into the
error mapping, each succeeding key into the value mapping, in order. -/
def runSchema : List (String × Validator) → List (String × JSVal) →
    Except String (List (String × JSVal) × List (String × JSVal))
  | [], _ => .ok ([], [])
  | (k, vd) :: rest, fields =>
      match validateV vd (lookupField fields k) with
      | .error e => .error e
      | .ok r =>
          match runSchema rest fields with
          | .error e => .error e
          | .ok ev =>
              if r.error.isNull then .ok (ev.1, (k, r.value) :: ev.2)
              else .ok ((k, r.error) :: ev.1, ev.2)

/-- The `payload.reduce` loop of `ListState.validate`: collect the results
of failing indices only. -/
def runList : Validator → List JSVal → ℕ → Except String (List (ℕ × JSResult))
  | _, [], _ => .ok []
  | vd, x :: rest, idx =>
      match validateV vd x with
      | .error e => .error e
      | .ok r =>
          match runList vd rest (idx + 1) with
          | .error e => .error e
          | .ok tail =>
              if r.error.isNull then .ok tail else .ok ((idx, r) :: tail)

end

/-- Extract the numeric argument after its `getType === "number"` guard has
passed; the fallback arm is unreachable then. -/
def toNumOf : JSVal → JSNum
  | .num n => n
  | _ => .nan

/-- `LengthMixins.minLength` (src/index.js 180–194). The ordering guard on
line 187 compares the previously stored `_minLength` (null coercing to 0)
against `_maxLength`, exactly as written in the source — not the new
argument. -/
def setMinLength (mnL mxL : Option JSNum) (length : JSVal) :
    Except String (Option JSNum × Option JSNum) :=
  match getType length with
  | .error e => .error e
  | .ok lengthType =>
      if lengthType != "number" then
        .error ("TypeError: Argument to the minLength must be of type number but got "
          ++ lengthType ++ ".")
      else if mxL.isSome && jsGeB (optNum mnL) (optNum mxL) then
        .error "Min length must be less than Max Length. Length Mismatch."
      else .ok (some (toNumOf length), mxL)

/-- `LengthMixins.maxLength` (src/index.js 195–211); its guard compares the
new argument against the stored `_minLength`. The TypeError text (naming
minLength, with the "numner" typo) is the source's. -/
def setMaxLength (mnL mxL : Option JSNum) (length : JSVal) :
    Except String (Option JSNum × Option JSNum) :=
  match getType length with
  | .error e => .error e
  | .ok lengthType =>
      if lengthType != "number" then
        .error ("TypeError: Argument to the minLength must be of type numner but got "
          ++ lengthType ++ ".")
      else if mnL.isSome && jsLeB (toNumOf length) (optNum mnL) then
        .error "Max length must be greater than Min Length. Length Mismatch."
      else .ok (mnL, some (toNumOf length))

/-- `NumberState.min` (src/index.js 317–328): rejects a new minimum not
strictly below an already-set maximum. -/
def setNumberMin (mn mx : Option JSNum) (value : JSVal) :
    Except String (Option JSNum × Option JSNum) :=
  match getType value with
  | .error e => .error e
  | .ok t =>
      if t != "number" then
        match jsToString value with
        | .ok s => .error ("TypeError: " ++ s ++ " must be of type number.")
        | .error e => .error e
      else if mx.isSome && jsGeB (toNumOf value) (optNum mx) then
        .error ("Min value " ++ numToString (toNumOf value)
          ++ " must be less than max value " ++ optNumToString mx)
      else .ok (some (toNumOf value), mx)

/-- `NumberState.max` (src/index.js 305–316): rejects a new maximum not
strictly above an already-set minimum. -/
def setNumberMax (mn mx : Option JSNum) (value : JSVal) :
    Except String (Option JSNum × Option JSNum) :=
  match getType value with
  | .error e => .error e
  | .ok t =>
      if t != "number" then
        match jsToString value with
        | .ok s => .error ("TypeError: " ++ s ++ " must be of type number.")
        | .error e => .error e
      else if mn.isSome && jsLeB (toNumOf value) (optNum mn) then
        .error ("Max value " ++ numToString (toNumOf value)
          ++ " must be greater than min value " ++ optNumToString mn)
      else .ok (mn, some (toNumOf value))

/-- The error mapping the object-schema loop builds: one entry per schema
key whose child validation returns a non-null error. -/
def errsOf (schema : List (String × Validator)) (fields : List (String × JSVal)) :
    List (String × JSVal) :=
  schema.filterMap (fun p =>
    match validateV p.2 (lookupField fields p.1) with
    | .ok r => if r.error.isNull then none else some (p.1, r.error)
    | .error _ => none)

/-- The value mapping the object-schema loop builds: one entry per schema
key whose child validation returns a null error. -/
def valsOf (schema : List (String × Validator)) (fields : List (String × JSVal)) :
    List (String × JSVal) :=
  schema.filterMap (fun p =>
    match validateV p.2 (lookupField fields p.1) with
    | .ok r => if r.error.isNull then some (p.1, r.value) else none
    | .error _ => none)

/-- Exactly one of error-present and value-present, presence meaning a
non-null field, as every presence check in the source tests. -/
def exactlyOne (r : JSResult) : Prop :=
  (r.error = .null ∧ r.value ≠ .null) ∨ (r.error ≠ .null ∧ r.value = .null)

/-- The kind name each validator's type check expects. -/
def expectedKind : Validator → String
  | .prim t _ => t
  | .anyV _ _ => "any"
  | .numberV _ _ _ _ _ _ => "number"
  | .stringV _ _ _ => "string"
  | .objectV _ _ _ _ => "object"
  | .listV _ _ _ _ => "array"

def isOptionalV : Validator → Bool
  | .prim _ o => o
  | .anyV o _ => o
  | .numberV o _ _ _ _ _ => o
  | .stringV o _ _ => o
  | .objectV o _ _ _ => o
  | .listV o _ _ _ => o

/-- The `allowUndefinedNull` flag; only the any-validator carries one. -/
def allowsUN : Validator → Bool
  | .anyV _ a => a
  | _ => false

def nonObject : Validator → Prop
  | .objectV _ _ _ _ => False
  | _ => True

/-- The factory `primitiveType` is only instantiated at "boolean" and
"symbol" in the source (src/index.js 7–8). -/
def kindOk : Validator → Prop
  | .prim t _ => t = "boolean" ∨ t = "symbol"
  | _ => True


lemma isNull_eq_true_iff (v : JSVal) : v.isNull = true ↔ v = .null := by
  cases v <;> simp [JSVal.isNull]

lemma isNull_eq_false_iff (v : JSVal) : v.isNull = false ↔ v ≠ .null := by
  cases v <;> simp [JSVal.isNull]

lemma success_error (v : JSVal) : (success v).error = .null := rfl

lemma typeError_error_ne_null (e a : String) : (typeError e a).error ≠ .null := by
  intro h
  exact JSVal.noConfusion h

lemma typeError_value (e a : String) : (typeError e a).value = .null := rfl

lemma getType_num (n : JSNum) : getType (.num n) = .ok (getTypeNum n) := by
  cases n <;> rfl

lemma getType_undef : getType .undef = .ok "undefined" := rfl

lemma getType_null : getType .null = .ok "null" := rfl

lemma getType_bool (b : Bool) : getType (.bool b) = .ok "boolean" := by
  cases b <;> rfl

lemma getType_obj (fields : List (String × JSVal)) :
    getType (.obj fields) = .ok "object" := rfl

lemma getType_str (s : String) (h : s ≠ "NaN") : getType (.str s) = .ok "string" := by
  simp only [getType, jsToString, toNumberCoerce]
  rw [if_neg, if_neg, if_neg, if_neg]
  · rfl
  · simp [isArrB]
  · simp [isNullB]
  · simp [isUndefB]
  · simp [h]

lemma getType_str_nan : getType (.str "NaN") = .ok "NaN" := rfl

lemma primitiveTypeCheck_eq (v : JSVal) (ty a : String) (hg : getType v = .ok a) :
    primitiveTypeCheck v ty = .ok (if a = ty then success v else typeError ty a) := by
  unfold primitiveTypeCheck
  rw [hg]
  by_cases hne : a = ty <;> simp [hne]

lemma primitiveTypeCheck_cases (v : JSVal) (ty : String) (res : JSResult)
    (h : primitiveTypeCheck v ty = .ok res) :
    (getType v = .ok ty ∧ res = success v) ∨
    (∃ a, getType v = .ok a ∧ a ≠ ty ∧ res = typeError ty a) := by
  cases hg : getType v with
  | error e =>
      unfold primitiveTypeCheck at h
      rw [hg] at h
      exact absurd h (by simp)
  | ok a =>
      rw [primitiveTypeCheck_eq v ty a hg] at h
      by_cases hne : a = ty
      · subst hne
        rw [if_pos rfl] at h
        exact Or.inl ⟨rfl, by injection h with h2; exact h2.symm⟩
      · rw [if_neg hne] at h
        exact Or.inr ⟨a, rfl, hne, by injection h with h2; exact h2.symm⟩

lemma checkForString_cases (s : String) :
    checkForString s = success (.str s) ∨ checkForString s = typeError "number" "string" := by
  unfold checkForString
  dsimp only
  split
  · exact Or.inr rfl
  · split
    · exact Or.inr rfl
    · exact Or.inl rfl

lemma rangeError_error_ne_null (t : String) (mn mx : Option JSNum) (mf : Bool) :
    (rangeError t mn mx mf).error ≠ .null := by
  unfold rangeError
  split <;> (intro h; exact JSVal.noConfusion h)

lemma rangeError_value (t : String) (mn mx : Option JSNum) (mf : Bool) :
    (rangeError t mn mx mf).value = .null := by
  unfold rangeError
  split <;> rfl

lemma rangeCheck_cases (v : JSNum) (mn mx : Option JSNum) (ty : String) :
    rangeCheck v mn mx ty = rangeError ty mn mx true ∨
    rangeCheck v mn mx ty = rangeError ty mn mx false ∨
    rangeCheck v mn mx ty = success (.num v) := by
  unfold rangeCheck
  split
  · exact Or.inl rfl
  · split
    · exact Or.inr (Or.inl rfl)
    · exact Or.inr (Or.inr rfl)

lemma lengthError_error_ne_null (t : String) (mn mx : Option JSNum) (mf : Bool) :
    (lengthError t mn mx mf).error ≠ .null := by
  unfold lengthError
  split <;> (intro h; exact JSVal.noConfusion h)

lemma lengthError_value (t : String) (mn mx : Option JSNum) (mf : Bool) :
    (lengthError t mn mx mf).value = .null := by
  unfold lengthError
  split <;> rfl

lemma lengthCheck_cases (vs : List JSVal) (mn mx : Option JSNum) (ty : String) :
    lengthCheck vs mn mx ty = lengthError ty mn mx true ∨
    lengthCheck vs mn mx ty = lengthError ty mn mx false ∨
    lengthCheck vs mn mx ty = success (.arr vs) := by
  unfold lengthCheck
  split
  · exact Or.inl rfl
  · split
    · exact Or.inr (Or.inl rfl)
    · exact Or.inr (Or.inr rfl)

/-- C9: the classifier maps the string "NaN" to the kind "NaN", not
"string", so a required string validator with no length bounds rejects the
string "NaN" with the type error "Expected string but got NaN". -/
theorem claim_C9 :
    getType (.str "NaN") = .ok "NaN" ∧
    validateV (.stringV false none none) (.str "NaN") = .ok (typeError "string" "NaN") ∧
    (typeError "string" "NaN").error = .str "Expected string but got NaN" := by
  refine ⟨rfl, ?_, rfl⟩
  simp only [validateV]
  rfl

/-- C10: the explicit infinity check of the number validator rejects only
positive Infinity; with no bounds and no coercion, validate(-Infinity)
succeeds with -Infinity itself, while validate(Infinity) fails with the
distinct Infinity error. -/
theorem claim_C10 :
    validateV (.numberV false none none false false none) (.num .negInf) =
      .ok (success (.num .negInf)) ∧
    validateV (.numberV false none none false false none) (.num .posInf) =
      .ok { error := .str "Expected number but got Infinity.Invalid!", value := .null } := by
  constructor <;> (simp only [validateV]; rfl)

/-- C2: contrary to the claim, validation of a symbol value throws: the
classifier stringifies its argument before anything else, which raises a
TypeError on symbols, so even the symbol validator itself throws instead of
returning a Result when handed a symbol. -/
theorem claim_C2 :
    validateV (.prim "symbol" false) (.sym "tag") =
      .error "TypeError: Cannot convert a Symbol value to a string" ∧
    validateV (.stringV false none none) (.sym "tag") =
      .error "TypeError: Cannot convert a Symbol value to a string" := by
  constructor <;> (simp only [validateV]; rfl)

/-- C8: contrary to the claim, a minLength call violating the strict bound
ordering does not throw: after maxLength(3), the call minLength(10) returns
normally (its guard compares the previously stored minimum, still unset,
against the maximum), leaving bounds 10 and 3 that violate minLength <
maxLength. -/
theorem claim_C8 :
    setMaxLength none none (.num (.finite 3)) = .ok (none, some (.finite 3)) ∧
    setMinLength none (some (.finite 3)) (.num (.finite 10)) =
      .ok (some (.finite 10), some (.finite 3)) ∧
    jsLtB (.finite 10) (.finite 3) = false :=
  ⟨rfl, rfl, rfl⟩

/-- C5: when neither toInteger nor toFloat is configured, a successful
number validation returns the original payload unchanged (a numeric string
stays that string). -/
theorem claim_C5 (opt : Bool) (mn mx dp : Option JSNum) (v : JSVal) (r : JSResult)
    (h : numberValidate opt mn mx false false dp v = .ok r) (he : r.error = .null) :
    r.value = v := by
  unfold numberValidate at h
  repeat' (first | (split at h) | (dsimp only at h))
  all_goals (try simp only [Except.ok.injEq] at h)
  all_goals (try subst h)
  all_goals simp_all [success, JSVal.isNull]

/-- C7: for every validator kind and both absent inputs (undefined, null):
an optional validator short-circuits to success with the input unchanged,
bypassing every other check; a required one (optional unset, and for the
any-validator allowUndefinedNull unset) fails with a type error naming the
validator's expected kind. -/
theorem claim_C7 (v : Validator) (x : JSVal) (hx : x = .undef ∨ x = .null) :
    (isOptionalV v = true → validateV v x = .ok (success x)) ∧
    (isOptionalV v = false → allowsUN v = false → kindOk v →
      ∃ t, validateV v x = .ok (typeError (expectedKind v) t)) := by
  constructor
  · intro hopt
    rcases hx with hx | hx <;> subst hx <;> cases v <;>
      simp only [isOptionalV] at hopt <;> subst hopt <;>
      (simp only [validateV]; rfl)
  · intro hopt haun hk
    rcases hx with hx | hx <;> subst hx <;> cases v <;>
      simp only [isOptionalV] at hopt <;> subst hopt
    · rcases hk with hk | hk <;> subst hk <;>
        exact ⟨"undefined", by simp only [validateV]; rfl⟩
    · simp only [allowsUN] at haun
      subst haun
      exact ⟨"undefined", by simp only [validateV]; rfl⟩
    · exact ⟨"NaN", by simp only [validateV]; rfl⟩
    · exact ⟨"undefined", by simp only [validateV]; rfl⟩
    · exact ⟨"undefined", by simp only [validateV]; rfl⟩
    · exact ⟨"undefined", by simp only [validateV]; rfl⟩
    · rcases hk with hk | hk <;> subst hk <;>
        exact ⟨"null", by simp only [validateV]; rfl⟩
    · simp only [allowsUN] at haun
      subst haun
      exact ⟨"null", by simp only [validateV]; rfl⟩
    · exact ⟨"NaN", by simp only [validateV]; rfl⟩
    · exact ⟨"null", by simp only [validateV]; rfl⟩
    · exact ⟨"null", by simp only [validateV]; rfl⟩
    · exact ⟨"null", by simp only [validateV]; rfl⟩

/-- C7 witness: an optional boolean validator passes undefined through; a
required string validator rejects null with a type error naming string. -/
theorem claim_C7_witness :
    validateV (.prim "boolean" true) .undef = .ok (success .undef) ∧
    (∃ t, validateV (.stringV false none none) .null =
      .ok (typeError (expectedKind (.stringV false none none)) t)) :=
  ⟨(claim_C7 (.prim "boolean" true) .undef (Or.inl rfl)).1 rfl,
   (claim_C7 (.stringV false none none) .null (Or.inr rfl)).2 rfl rfl trivial⟩

/-- C5 witness: number().validate("42") succeeds and, with no coercion
configured, the success value is the original string "42". -/
theorem claim_C5_witness :
    numberValidate false none none false false none (.str "42") =
      .ok { error := .null, value := .str "42" } ∧
    (JSResult.mk JSVal.null (.str "42")).value = .str "42" :=
  ⟨rfl, claim_C5 false none none none (.str "42") { error := .null, value := .str "42" } rfl rfl⟩

lemma dropWhile_eq_self_of (p : Char → Bool) (l : List Char)
    (h : ∀ c ∈ l, p c = false) : l.dropWhile p = l := by
  cases l with
  | nil => rfl
  | cons c t => simp [List.dropWhile_cons, h c (by simp)]

lemma takeWhile_all (p : Char → Bool) (l : List Char) (h : ∀ c ∈ l, p c = true) :
    l.takeWhile p = l ∧ l.dropWhile p = [] := by
  induction l with
  | nil => exact ⟨rfl, rfl⟩
  | cons c t ih =>
      have hc := h c (by simp)
      have ht := ih (fun d hd => h d (by simp [hd]))
      simp [List.takeWhile_cons, List.dropWhile_cons, hc, ht.1, ht.2]

lemma takeWhile_append_all (p : Char → Bool) (l rest : List Char)
    (h : ∀ c ∈ l, p c = true) :
    (l ++ rest).takeWhile p = l ++ rest.takeWhile p ∧
    (l ++ rest).dropWhile p = rest.dropWhile p := by
  induction l with
  | nil => simp
  | cons c t ih =>
      have hc := h c (by simp)
      have ht := ih (fun d hd => h d (by simp [hd]))
      simp [List.takeWhile_cons, List.dropWhile_cons, hc, ht.1, ht.2]

lemma ws_not_digit_dot (c : Char) (h : isWs c = true) :
    ¬(isDigitCode c = true ∨ c = '.') := by
  have hc : c = ' ' ∨ c = '\t' ∨ c = '\n' ∨ c = '\r' := by
    simpa [isWs, or_assoc] using h
  rcases hc with h | h | h | h <;> subst h <;> decide

lemma infinity_not_prefix (c : Char) (t : List Char) (h : c ≠ 'I') :
    "Infinity".data.isPrefixOf (c :: t) = false := by
  have hd : "Infinity".data = 'I' :: "nfinity".data := rfl
  rw [hd]
  simp only [List.isPrefixOf]
  rw [Bool.and_eq_false_iff]
  left
  simp [beq_iff_eq]
  exact fun e => h e.symm

lemma anyB_eq_false (l : List Bool) (h : ∀ b ∈ l, b = false) : anyB l = false := by
  unfold anyB
  induction l with
  | nil => rfl
  | cons b t ih =>
      have hb := h b (by simp)
      subst hb
      simpa using ih (fun d hd => h d (by simp [hd]))

lemma foldl_or_true (l : List Bool) (acc : Bool)
    (h : acc = true ∨ ∃ b ∈ l, b = true) :
    l.foldl (fun a v => a || v) acc = true := by
  induction l generalizing acc with
  | nil =>
      rcases h with h | h
      · exact h
      · simp at h
  | cons b t ih =>
      rcases h with h | h
      · subst h
        exact ih true (Or.inl rfl)
      · rcases h with ⟨x, hx, hxt⟩
        rcases List.mem_cons.mp hx with rfl | hmem
        · exact ih (acc || x) (Or.inl (by simp [hxt]))
        · exact ih (acc || b) (Or.inr ⟨x, hmem, hxt⟩)

lemma anyB_eq_true (l : List Bool) (h : ∃ b ∈ l, b = true) : anyB l = true :=
  foldl_or_true l false (Or.inr h)

lemma checkForString_good (s : String)
    (hall : ∀ c ∈ s.data, isDigitCode c = true ∨ c = '.')
    (hdots : s.data.count '.' ≤ 1) :
    checkForString s = success (.str s) := by
  unfold checkForString
  dsimp only
  have hflags : anyB (s.data.map (fun c => !(isDigitCode c || decide (c = '.')))) = false := by
    apply anyB_eq_false
    intro b hb
    rcases List.mem_map.mp hb with ⟨c, hc, rfl⟩
    rcases hall c hc with h | h <;> simp [h]
  rw [hflags]
  rw [if_neg (by simp), if_neg (by omega)]

lemma checkForString_bad (s : String)
    (h : (∃ c ∈ s.data, isDigitCode c = false ∧ c ≠ '.') ∨ s.data.count '.' > 1) :
    checkForString s = typeError "number" "string" := by
  unfold checkForString
  dsimp only
  by_cases ha : anyB (s.data.map (fun c => !(isDigitCode c || decide (c = '.')))) = true
  · rw [if_pos ha]
  · have hcount : s.data.count '.' > 1 := by
      rcases h with ⟨c, hc, hd, hne⟩ | h
      · exact absurd (anyB_eq_true _ ⟨_, List.mem_map.mpr ⟨c, hc, rfl⟩, by simp [hd, hne]⟩) ha
      · exact h
    rw [if_neg ha, if_pos hcount]

lemma parseUnsigned_good (cs : List Char)
    (hall : ∀ c ∈ cs, isDigitCode c = true ∨ c = '.')
    (hdots : cs.count '.' ≤ 1)
    (hdig : ∃ c ∈ cs, isDigitCode c = true) :
    ∃ q r, parseUnsigned cs = some (.finite q, r) := by
  obtain ⟨cd, hcd, hcddig⟩ := hdig
  cases cs with
  | nil => simp at hcd
  | cons c0 t0 =>
      have hc0 : isDigitCode c0 = true ∨ c0 = '.' := hall c0 (by simp)
      have hpre : "Infinity".data.isPrefixOf (c0 :: t0) = false := by
        apply infinity_not_prefix
        intro e
        subst e
        rcases hc0 with h | h
        · exact absurd h (by decide)
        · exact absurd h (by decide)
      unfold parseUnsigned
      rw [hpre]
      simp only [Bool.false_eq_true, if_false]
      by_cases hdot : '.' ∈ (c0 :: t0)
      · obtain ⟨ds, ts, heq⟩ := List.append_of_mem hdot
        rw [heq]
        rw [heq] at hall hdots hcd
        have hds0 : ds.count '.' = 0 ∧ ts.count '.' = 0 := by
          rw [List.count_append, List.count_cons_self] at hdots
          omega
        have hdsall : ∀ c ∈ ds, isDigitCode c = true := by
          intro c hc
          rcases hall c (by simp [hc]) with h | h
          · exact h
          · subst h
            exact absurd (List.count_eq_zero.mp hds0.1 hc) (fun e => e)
        have htsall : ∀ c ∈ ts, isDigitCode c = true := by
          intro c hc
          rcases hall c (by simp [hc]) with h | h
          · exact h
          · subst h
            exact absurd (List.count_eq_zero.mp hds0.2 hc) (fun e => e)
        have htake := takeWhile_append_all isDigitCode ds ('.' :: ts) hdsall
        rw [htake.1, htake.2]
        rw [List.takeWhile_cons, List.dropWhile_cons]
        simp only [show isDigitCode '.' = false from rfl, Bool.false_eq_true, if_false,
          List.append_nil]
        have hts := takeWhile_all isDigitCode ts htsall
        rw [hts.1, hts.2]
        have hne : (ds.isEmpty && ts.isEmpty) = false := by
          rcases List.mem_append.mp hcd with hmem | hmem
          · cases ds with
            | nil => simp at hmem
            | cons a b => simp
          · rcases List.mem_cons.mp hmem with rfl | hmem
            · exact absurd hcddig (by decide)
            · cases ts with
              | nil => simp at hmem
              | cons a b => simp
        rw [hne]
        simp only [Bool.false_eq_true, if_false]
        exact ⟨_, _, rfl⟩
      · have halld : ∀ c ∈ (c0 :: t0), isDigitCode c = true := by
          intro c hc
          rcases hall c hc with h | h
          · exact h
          · subst h
            exact absurd hc hdot
        have htk := takeWhile_all isDigitCode (c0 :: t0) halld
        rw [htk.1, htk.2]
        simp only [List.isEmpty_cons, Bool.false_eq_true, if_false]
        exact ⟨_, _, rfl⟩

lemma parseFloatStr_good (s : String)
    (hall : ∀ c ∈ s.data, isDigitCode c = true ∨ c = '.')
    (hdots : s.data.count '.' ≤ 1)
    (hdig : ∃ c ∈ s.data, isDigitCode c = true) :
    ∃ q, parseFloatStr s = .finite q := by
  have hws : s.data.dropWhile isWs = s.data := by
    apply dropWhile_eq_self_of
    intro c hc
    cases hw : isWs c with
    | false => rfl
    | true => exact absurd (hall c hc) (ws_not_digit_dot c hw)
  have hcore : parseNumCore s.data = parseUnsigned s.data := by
    unfold parseNumCore
    split
    · next heq =>
        rw [heq] at hall
        rcases hall '+' (by simp) with h | h <;> exact absurd h (by decide)
    · next heq =>
        rw [heq] at hall
        rcases hall '-' (by simp) with h | h <;> exact absurd h (by decide)
    · rfl
  obtain ⟨q, r, hq⟩ := parseUnsigned_good s.data hall hdots hdig
  unfold parseFloatStr
  rw [hws, hcore, hq]
  exact ⟨q, rfl⟩

/-- C4: for a default number() validator and a string payload s, reading the
claim's success condition conjunctively (characters are digits with at most
one dot separator, and s parses as a decimal, i.e. contains at least one
digit): validate(s) succeeds — returning s itself; and when s contains a
character that is neither a digit nor a dot, or more than one dot,
validate(s) fails with a type error. -/
theorem claim_C4 (s : String) :
    ((∀ c ∈ s.data, isDigitCode c = true ∨ c = '.') → s.data.count '.' ≤ 1 →
      (∃ c ∈ s.data, isDigitCode c = true) →
      validateV (.numberV false none none false false none) (.str s) =
        .ok (success (.str s))) ∧
    (((∃ c ∈ s.data, isDigitCode c = false ∧ c ≠ '.') ∨ s.data.count '.' > 1) →
      ∃ t, validateV (.numberV false none none false false none) (.str s) =
        .ok (typeError "number" t)) := by
  constructor
  · intro hall hdots hdig
    have hsne : s ≠ "NaN" := by
      intro e
      subst e
      rcases hall 'N' (by decide) with h | h <;> exact absurd h (by decide)
    obtain ⟨q, hq⟩ := parseFloatStr_good s hall hdots hdig
    have hcv : checkForStringV (.str s) = success (.str s) :=
      checkForString_good s hall hdots
    have hpf : jsParseFloat (.str s) = .ok (.finite q) := by
      have h1 : jsParseFloat (.str s) = .ok (parseFloatStr s) := rfl
      rw [h1, hq]
    simp only [validateV]
    unfold numberValidate
    rw [getType_str s hsne]
    dsimp only
    rw [hcv, ite_self]
    rw [if_neg (show ¬((!(success (.str s)).error.isNull) = true) from Bool.false_ne_true)]
    rw [if_neg (show ¬(isPosInfV (.str s) = true) from Bool.false_ne_true)]
    rw [hpf]
    dsimp only
    have hptc := primitiveTypeCheck_eq (.num (.finite q)) "number" "number" (getType_num _)
    rw [if_pos rfl] at hptc
    rw [hptc]
    rfl
  · intro h
    by_cases hnan : s = "NaN"
    · subst hnan
      exact ⟨"NaN", by simp only [validateV]; rfl⟩
    · have hcv : checkForStringV (.str s) = typeError "number" "string" :=
        checkForString_bad s h
      refine ⟨"string", ?_⟩
      simp only [validateV]
      unfold numberValidate
      rw [getType_str s hnan]
      dsimp only
      rw [hcv]
      rfl

/-- C4 witness: number().validate("3.14") succeeds with the original string
"3.14", and number().validate("3a") fails with a type error. -/
theorem claim_C4_witness :
    validateV (.numberV false none none false false none) (.str "3.14") =
      .ok (success (.str "3.14")) ∧
    (∃ t, validateV (.numberV false none none false false none) (.str "3a") =
      .ok (typeError "number" t)) :=
  ⟨(claim_C4 "3.14").1 (by decide) (by decide) (by decide),
   (claim_C4 "3a").2 (Or.inl ⟨'a', by decide, by decide⟩)⟩

lemma rangeCheck_minmax (x a b : ℚ) :
    rangeCheck (.finite x) (some (.finite a)) (some (.finite b)) "number" =
      if x < a then rangeError "number" (some (.finite a)) (some (.finite b)) true
      else if b < x then rangeError "number" (some (.finite a)) (some (.finite b)) false
      else success (.num (.finite x)) := by
  unfold rangeCheck
  have h1 : ((some (JSNum.finite a)).isSome && (getTypeNum (optNum (some (.finite a))) == "number")
      && jsLtB (.finite x) (optNum (some (.finite a)))) = decide (x < a) := by
    simp [optNum, getTypeNum, isNaNnum, jsLtB]
  have h2 : ((some (JSNum.finite b)).isSome && (getTypeNum (optNum (some (.finite b))) == "number")
      && jsGtB (.finite x) (optNum (some (.finite b)))) = decide (b < x) := by
    simp [optNum, getTypeNum, isNaNnum, jsGtB, jsLtB]
  rw [h1, h2]
  by_cases hxa : x < a
  · simp [hxa]
  · by_cases hbx : b < x <;> simp [hxa, hbx]

lemma nv_nan (a b : ℚ) :
    numberValidate false (some (.finite a)) (some (.finite b)) false false none (.num .nan) =
      .ok (typeError "number" "NaN") := rfl

lemma nv_posInf (mn mx : Option JSNum) :
    numberValidate false mn mx false false none (.num .posInf) =
      .ok { error := .str "Expected number but got Infinity.Invalid!", value := .null } := rfl

lemma nv_negInf (a b : ℚ) :
    numberValidate false (some (.finite a)) (some (.finite b)) false false none (.num .negInf) =
      .ok (rangeError "number" (some (.finite a)) (some (.finite b)) true) := rfl

lemma nv_finite (a b x : ℚ) :
    numberValidate false (some (.finite a)) (some (.finite b)) false false none (.num (.finite x)) =
      if x < a then .ok (rangeError "number" (some (.finite a)) (some (.finite b)) true)
      else if b < x then .ok (rangeError "number" (some (.finite a)) (some (.finite b)) false)
      else .ok (success (.num (.finite x))) := by
  have hts : (getTypeNum (.finite x) == "string") = false := by
    simp [getTypeNum, isNaNnum]
  have hpi : isPosInfV (.num (.finite x)) = false := rfl
  have hjp : jsParseFloat (.num (.finite x)) = Except.ok (.finite x) := rfl
  have hptc := primitiveTypeCheck_eq (.num (.finite x)) "number" "number" (getType_num _)
  rw [if_pos rfl] at hptc
  unfold numberValidate
  rw [getType_num]
  simp only [hts, hpi, hjp, hptc, rangeCheck_minmax]
  by_cases hxa : x < a
  · simp [hxa, success, JSVal.isNull, rangeError]
  · by_cases hbx : b < x
    · simp [hxa, hbx, success, JSVal.isNull, rangeError]
    · simp [hxa, hbx, success, JSVal.isNull]

/-- C6 (amended): with bounds a < b configured through min(a) and max(b)
(which both return without throwing), validate(n) succeeds iff a ≤ n ≤ b
under JS comparison (so NaN fails both sides); a value below the minimum
fails with the message naming the min bound and its value, a non-Infinity
value above the maximum fails with the message naming the max bound and its
value (positive Infinity instead hits the distinct Infinity rejection), and
rangeCheck tests the minimum before the maximum for any bounds. -/
theorem claim_C6 (a b : ℚ) (n : JSNum) (hab : a < b) :
    setNumberMin none none (.num (.finite a)) = .ok (some (.finite a), none) ∧
    setNumberMax (some (.finite a)) none (.num (.finite b)) =
      .ok (some (.finite a), some (.finite b)) ∧
    ((∃ r, validateV (.numberV false (some (.finite a)) (some (.finite b)) false false none)
        (.num n) = .ok r ∧ r.error = .null) ↔
      (jsLeB (.finite a) n = true ∧ jsLeB n (.finite b) = true)) ∧
    (jsLtB n (.finite a) = true →
      validateV (.numberV false (some (.finite a)) (some (.finite b)) false false none)
        (.num n) =
      .ok { error := .str ("number can have min value of " ++ numToString (.finite a) ++ "."),
            value := .null }) ∧
    (jsLtB n (.finite a) = false → jsLtB (.finite b) n = true → n ≠ .posInf →
      validateV (.numberV false (some (.finite a)) (some (.finite b)) false false none)
        (.num n) =
      .ok { error := .str ("number can have max value of " ++ numToString (.finite b) ++ "."),
            value := .null }) ∧
    (∀ (v m : JSNum) (mx : Option JSNum) (ty : String), isNaNnum m = false →
      jsLtB v m = true → rangeCheck v (some m) mx ty = rangeError ty (some m) mx true) := by
  have hle : jsLeB (.finite b) (.finite a) = false := by
    simp [jsLeB, jsLtB, hab]
  refine ⟨rfl, ?_, ?_, ?_, ?_, ?_⟩
  · unfold setNumberMax
    rw [getType_num]
    simp [getTypeNum, isNaNnum, toNumOf, optNum, hle]
  · simp only [validateV]
    cases n with
    | nan =>
        apply iff_of_false
        · rintro ⟨r, hr, he⟩
          rw [nv_nan] at hr
          injection hr with h
          rw [← h] at he
          exact typeError_error_ne_null _ _ he
        · rintro ⟨h1, h2⟩
          simp [jsLeB] at h1
    | posInf =>
        apply iff_of_false
        · rintro ⟨r, hr, he⟩
          rw [nv_posInf] at hr
          injection hr with h
          rw [← h] at he
          exact JSVal.noConfusion he
        · rintro ⟨h1, h2⟩
          simp [jsLeB, jsLtB] at h2
    | negInf =>
        apply iff_of_false
        · rintro ⟨r, hr, he⟩
          rw [nv_negInf] at hr
          injection hr with h
          rw [← h] at he
          exact rangeError_error_ne_null _ _ _ _ he
        · rintro ⟨h1, h2⟩
          simp [jsLeB, jsLtB] at h1
    | finite x =>
        rw [nv_finite]
        by_cases hxa : x < a
        · rw [if_pos hxa]
          apply iff_of_false
          · rintro ⟨r, hr, he⟩
            injection hr with h
            rw [← h] at he
            exact rangeError_error_ne_null _ _ _ _ he
          · rintro ⟨h1, h2⟩
            simp [jsLeB, jsLtB, hxa] at h1
        · rw [if_neg hxa]
          by_cases hbx : b < x
          · rw [if_pos hbx]
            apply iff_of_false
            · rintro ⟨r, hr, he⟩
              injection hr with h
              rw [← h] at he
              exact rangeError_error_ne_null _ _ _ _ he
            · rintro ⟨h1, h2⟩
              simp [jsLeB, jsLtB, hbx] at h2
          · rw [if_neg hbx]
            apply iff_of_true
            · exact ⟨success (.num (.finite x)), rfl, rfl⟩
            · constructor <;> simp [jsLeB, jsLtB, hxa, hbx]
  · intro hlt
    simp only [validateV]
    cases n with
    | nan => simp [jsLtB] at hlt
    | posInf => simp [jsLtB] at hlt
    | negInf => exact nv_negInf a b
    | finite x =>
        have hxa : x < a := of_decide_eq_true hlt
        rw [nv_finite, if_pos hxa]
        rfl
  · intro h1 h2 hne
    simp only [validateV]
    cases n with
    | nan => simp [jsLtB] at h2
    | posInf => exact absurd rfl hne
    | negInf => simp [jsLtB] at h1
    | finite x =>
        have hxa : ¬(x < a) := of_decide_eq_false h1
        have hbx : b < x := of_decide_eq_true h2
        rw [nv_finite, if_neg hxa, if_pos hbx]
        rfl
  · intro v m mx ty hm hlt
    unfold rangeCheck
    rw [if_pos]
    simp [optNum, getTypeNum, hm, hlt]

/-- C6 counterexample: with min 0 and max 5 configured, validate(Infinity)
fails (Infinity does exceed the max bound), but the error is the Infinity
rejection message, which does not contain the violated bound's value 5 —
contradicting the claim that every failure names the violated bound. -/
theorem claim_C6_counterexample :
    validateV (.numberV false (some (.finite 0)) (some (.finite 5)) false false none)
      (.num .posInf) =
      .ok { error := .str "Expected number but got Infinity.Invalid!", value := .null } ∧
    jsLtB (.finite 5) .posInf = true ∧
    ("Expected number but got Infinity.Invalid!".data.contains '5') = false := by
  refine ⟨?_, rfl, by decide⟩
  simp only [validateV]
  exact nv_posInf _ _

/-- C6 witness: with bounds 0 < 5, the configuration calls succeed and
validate(3) succeeds since 0 ≤ 3 ≤ 5. -/
theorem claim_C6_witness :
    setNumberMin none none (.num (.finite 0)) = .ok (some (.finite 0), none) ∧
    ((∃ r, validateV (.numberV false (some (.finite 0)) (some (.finite 5)) false false none)
        (.num (.finite 3)) = .ok r ∧ r.error = .null) ↔
      (jsLeB (.finite 0) (.finite 3) = true ∧ jsLeB (.finite 3) (.finite 5) = true)) :=
  ⟨(claim_C6 0 5 (.finite 3) (by norm_num)).1,
   (claim_C6 0 5 (.finite 3) (by norm_num)).2.2.1⟩

lemma runSchema_cons (k : String) (vd : Validator) (rest : List (String × Validator))
    (fields : List (String × JSVal)) (r : JSResult)
    (hr : validateV vd (lookupField fields k) = .ok r)
    (errs vals : List (String × JSVal))
    (hrest : runSchema rest fields = .ok (errs, vals)) :
    runSchema ((k, vd) :: rest) fields =
      if r.error.isNull then .ok (errs, (k, r.value) :: vals)
      else .ok ((k, r.error) :: errs, vals) := by
  unfold runSchema
  rw [hr, hrest]

lemma runSchema_eq (schema : List (String × Validator)) (fields : List (String × JSVal))
    (hch : ∀ p ∈ schema, ∃ r, validateV p.2 (lookupField fields p.1) = .ok r) :
    runSchema schema fields = .ok (errsOf schema fields, valsOf schema fields) := by
  induction schema with
  | nil =>
      unfold runSchema
      rfl
  | cons p rest ih =>
      obtain ⟨k, vd⟩ := p
      obtain ⟨r, hr⟩ := hch (k, vd) (by simp)
      have ihr := ih (fun q hq => hch q (by simp [hq]))
      rw [runSchema_cons k vd rest fields r hr _ _ ihr]
      by_cases hn : r.error.isNull = true
      · have he1 : errsOf ((k, vd) :: rest) fields = errsOf rest fields := by
          simp [errsOf, List.filterMap_cons, hr, hn]
        have hv1 : valsOf ((k, vd) :: rest) fields = (k, r.value) :: valsOf rest fields := by
          simp [valsOf, List.filterMap_cons, hr, hn]
        rw [he1, hv1, if_pos hn]
      · have he1 : errsOf ((k, vd) :: rest) fields = (k, r.error) :: errsOf rest fields := by
          simp [errsOf, List.filterMap_cons, hr, hn]
        have hv1 : valsOf ((k, vd) :: rest) fields = valsOf rest fields := by
          simp [valsOf, List.filterMap_cons, hr, hn]
        rw [he1, hv1, if_neg hn]

/-- Evaluation of object-schema validation past its type and key-count
checks: the result pairs the error and value mappings built by the schema
loop, each collapsed to null when empty. -/
lemma objectValidate_run (opt : Bool) (mnL mxL : Option JSNum)
    (schema : List (String × Validator)) (fields : List (String × JSVal))
    (hlen : (lengthCheck (fields.map (fun p => JSVal.str p.1)) mnL mxL "object").error = .null)
    (hch : ∀ p ∈ schema, ∃ r, validateV p.2 (lookupField fields p.1) = .ok r) :
    validateV (.objectV opt mnL mxL schema) (.obj fields) =
      .ok { error := if (errsOf schema fields).isEmpty then .null
                     else .obj (errsOf schema fields),
            value := if (valsOf schema fields).isEmpty then .null
                     else .obj (valsOf schema fields) } := by
  have hptc := primitiveTypeCheck_eq (.obj fields) "object" "object" (getType_obj fields)
  rw [if_pos rfl] at hptc
  simp only [validateV]
  rw [show (isUndefB (.obj fields) || isNullB (.obj fields)) = false from rfl]
  rw [Bool.and_false]
  rw [if_neg Bool.false_ne_true]
  rw [hptc]
  dsimp only
  rw [if_neg (show ¬((!(success (JSVal.obj fields)).error.isNull) = true) from
    Bool.false_ne_true)]
  rw [runSchema_eq schema fields hch]
  by_cases hb : (mnL.isSome || mxL.isSome) = true
  · rw [if_pos hb]
    have h2 : (lengthCheck (fields.map (fun p => JSVal.str p.1)) mnL mxL "object").error.isNull
        = true := (isNull_eq_true_iff _).mpr hlen
    rw [h2]
    rw [if_neg (show ¬((!true) = true) from Bool.false_ne_true)]
  · rw [if_neg hb]
    rw [if_neg (show ¬((!(success (JSVal.obj fields)).error.isNull) = true) from
      Bool.false_ne_true)]

lemma errsOf_mem (schema : List (String × Validator)) (fields : List (String × JSVal))
    (k : String) (e : JSVal) (hmem : (k, e) ∈ errsOf schema fields) :
    e ≠ .null ∧ k ∈ schema.map Prod.fst ∧
    ∃ vd r, (k, vd) ∈ schema ∧ validateV vd (lookupField fields k) = .ok r ∧
      r.error = e := by
  rcases List.mem_filterMap.mp hmem with ⟨p, hp, hf⟩
  obtain ⟨k2, vd⟩ := p
  cases hval : validateV vd (lookupField fields k2) with
  | error e2 => rw [hval] at hf; simp at hf
  | ok r =>
      rw [hval] at hf
      dsimp only at hf
      by_cases hn : r.error.isNull = true
      · rw [if_pos hn] at hf
        simp at hf
      · rw [if_neg hn] at hf
        rw [Option.some.injEq, Prod.mk.injEq] at hf
        obtain ⟨rfl, rfl⟩ := hf
        exact ⟨(isNull_eq_false_iff _).mp (by simpa using hn),
          List.mem_map.mpr ⟨(_, vd), hp, rfl⟩, vd, r, hp, hval, rfl⟩

lemma valsOf_mem (schema : List (String × Validator)) (fields : List (String × JSVal))
    (k : String) (v : JSVal) (hmem : (k, v) ∈ valsOf schema fields) :
    k ∈ schema.map Prod.fst ∧
    ∃ vd r, (k, vd) ∈ schema ∧ validateV vd (lookupField fields k) = .ok r ∧
      r.error = .null ∧ r.value = v := by
  rcases List.mem_filterMap.mp hmem with ⟨p, hp, hf⟩
  obtain ⟨k2, vd⟩ := p
  cases hval : validateV vd (lookupField fields k2) with
  | error e2 => rw [hval] at hf; simp at hf
  | ok r =>
      rw [hval] at hf
      dsimp only at hf
      by_cases hn : r.error.isNull = true
      · rw [if_pos hn] at hf
        rw [Option.some.injEq, Prod.mk.injEq] at hf
        obtain ⟨rfl, rfl⟩ := hf
        exact ⟨List.mem_map.mpr ⟨(_, vd), hp, rfl⟩, vd, r, hp, hval,
          (isNull_eq_true_iff _).mp hn, rfl⟩
      · rw [if_neg hn] at hf
        simp at hf

lemma exactlyOne_success (x : JSVal) (hx : x ≠ .null) : exactlyOne (success x) :=
  Or.inl ⟨rfl, hx⟩

lemma exactlyOne_typeError (e a : String) : exactlyOne (typeError e a) :=
  Or.inr ⟨typeError_error_ne_null e a, rfl⟩

lemma exactlyOne_rangeError (t : String) (mn mx : Option JSNum) (mf : Bool) :
    exactlyOne (rangeError t mn mx mf) :=
  Or.inr ⟨rangeError_error_ne_null t mn mx mf, rangeError_value t mn mx mf⟩

lemma exactlyOne_lengthError (t : String) (mn mx : Option JSNum) (mf : Bool) :
    exactlyOne (lengthError t mn mx mf) :=
  Or.inr ⟨lengthError_error_ne_null t mn mx mf, lengthError_value t mn mx mf⟩

lemma exactlyOne_str_err (m : String) :
    exactlyOne { error := JSVal.str m, value := JSVal.null } :=
  Or.inr ⟨fun h => JSVal.noConfusion h, rfl⟩

lemma exactlyOne_obj_err (l : List (String × JSVal)) :
    exactlyOne { error := JSVal.obj l, value := JSVal.null } :=
  Or.inr ⟨fun h => JSVal.noConfusion h, rfl⟩

lemma checkForStringV_err (x : JSVal) (h : (checkForStringV x).error ≠ .null) :
    checkForStringV x = typeError "number" "string" := by
  cases x <;> (try exact absurd rfl h)
  next s =>
    rcases checkForString_cases s with hc | hc
    · exact absurd (by rw [show checkForStringV (.str s) = checkForString s from rfl, hc]; rfl) h
    · rw [show checkForStringV (.str s) = checkForString s from rfl, hc]

lemma c1_prim (t : String) (opt : Bool) (x : JSVal) (r : JSResult) (hx : x ≠ .null)
    (h : primValidate t opt x = .ok r) : exactlyOne r := by
  unfold primValidate at h
  split at h
  · injection h with h2
    rw [← h2]
    exact exactlyOne_success x hx
  · rcases primitiveTypeCheck_cases x t r h with ⟨_, hr⟩ | ⟨a, _, _, hr⟩
    · rw [hr]
      exact exactlyOne_success x hx
    · rw [hr]
      exact exactlyOne_typeError t a

lemma c1_any (opt aun : Bool) (x : JSVal) (r : JSResult) (hx : x ≠ .null)
    (h : anyValidate opt aun x = .ok r) : exactlyOne r := by
  unfold anyValidate at h
  split at h
  · injection h with h2
    rw [← h2]
    exact exactlyOne_success x hx
  · split at h
    · simp at h
    · split at h
      · injection h with h2
        rw [← h2]
        exact exactlyOne_typeError "any" _
      · injection h with h2
        rw [← h2]
        exact exactlyOne_success x hx

lemma c1_string (opt : Bool) (mnL mxL : Option JSNum) (x : JSVal) (r : JSResult)
    (hx : x ≠ .null) (h : stringValidate opt mnL mxL x = .ok r) : exactlyOne r := by
  unfold stringValidate at h
  split at h
  · injection h with h2
    rw [← h2]
    exact exactlyOne_success x hx
  · split at h
    · simp at h
    · next value heq =>
        dsimp only at h
        split at h
        next hcond =>
          injection h with h2
          rw [← h2]
          rcases primitiveTypeCheck_cases x "string" value heq with ⟨_, hr⟩ | ⟨a, _, _, hr⟩
          · rw [hr] at hcond
            simp [success, JSVal.isNull] at hcond
          · rw [hr]
            exact exactlyOne_typeError "string" a
        next hcond0 =>
          by_cases hb : (mnL.isSome || mxL.isSome) = true
          · rw [if_pos hb] at h
            split at h
            next hcond =>
              injection h with h2
              rw [← h2]
              rcases lengthCheck_cases (strValues x) mnL mxL "string" with hl | hl | hl
              · rw [hl]
                exact exactlyOne_lengthError _ _ _ _
              · rw [hl]
                exact exactlyOne_lengthError _ _ _ _
              · rw [hl] at hcond
                simp [success, JSVal.isNull] at hcond
            next hcond =>
              injection h with h2
              rw [← h2]
              exact exactlyOne_success x hx
          · rw [if_neg hb] at h
            rw [if_neg (show ¬((!(success x).error.isNull) = true) from Bool.false_ne_true)] at h
            injection h with h2
            rw [← h2]
            exact exactlyOne_success x hx

lemma c1_conv (toInt toFl : Bool) (dp : Option JSNum) (x : JSVal) (r : JSResult)
    (hx : x ≠ .null)
    (h : (match (if toInt = true then
            match convertToInteger x with
            | Except.ok n => Except.ok (JSVal.num n)
            | Except.error e => Except.error e
          else if toFl = true then
            match convertToFloat x dp with
            | Except.ok n => Except.ok (JSVal.num n)
            | Except.error e => Except.error e
          else Except.ok x) with
        | Except.error e => Except.error e
        | Except.ok conv => Except.ok (success conv)) = .ok r) : exactlyOne r := by
  split at h
  · simp at h
  · rename_i conv heqc
    injection h with h2
    rw [← h2]
    split at heqc
    · split at heqc
      · injection heqc with h3
        rw [← h3]
        exact exactlyOne_success _ (fun hh => JSVal.noConfusion hh)
      · simp at heqc
    · split at heqc
      · split at heqc
        · injection heqc with h3
          rw [← h3]
          exact exactlyOne_success _ (fun hh => JSVal.noConfusion hh)
        · simp at heqc
      · injection heqc with h3
        rw [← h3]
        exact exactlyOne_success x hx

lemma c1_number (opt : Bool) (mn mx : Option JSNum) (toInt toFl : Bool) (dp : Option JSNum)
    (x : JSVal) (r : JSResult) (hx : x ≠ .null)
    (h : numberValidate opt mn mx toInt toFl dp x = .ok r) : exactlyOne r := by
  unfold numberValidate at h
  split at h
  · injection h with h2
    rw [← h2]
    exact exactlyOne_success x hx
  · split at h
    · simp at h
    · next t heq =>
        dsimp only at h
        by_cases hts : (t == "string") = true
        · rw [if_pos hts] at h
          split at h
          · next hcond =>
              injection h with h2
              rw [← h2]
              rw [checkForStringV_err x ((isNull_eq_false_iff _).mp (by simpa using hcond))]
              exact exactlyOne_typeError _ _
          · next hcond =>
              split at h
              · injection h with h2
                rw [← h2]
                exact exactlyOne_str_err _
              · split at h
                · simp at h
                · next pn hpn =>
                    split at h
                    · simp at h
                    · next value hval =>
                        split at h
                        · next hcond2 =>
                            injection h with h2
                            rw [← h2]
                            rcases primitiveTypeCheck_cases _ _ _ hval with ⟨_, hr⟩ | ⟨a, _, _, hr⟩
                            · rw [hr] at hcond2
                              simp [success, JSVal.isNull] at hcond2
                            · rw [hr]
                              exact exactlyOne_typeError _ _
                        · next hcond2 =>
                            try dsimp only at h
                            by_cases hb : (mn.isSome || mx.isSome) = true
                            · rw [if_pos hb] at h
                              split at h
                              · next hcond3 =>
                                  injection h with h2
                                  rw [← h2]
                                  rcases rangeCheck_cases pn mn mx "number" with hl | hl | hl
                                  · rw [hl]
                                    exact exactlyOne_rangeError _ _ _ _
                                  · rw [hl]
                                    exact exactlyOne_rangeError _ _ _ _
                                  · rw [hl] at hcond3
                                    simp [success, JSVal.isNull] at hcond3
                              · next hcond3 =>
                                  exact c1_conv toInt toFl dp x r hx h
                            · rw [if_neg hb] at h
                              rw [if_neg (show ¬((!(success (JSVal.num pn)).error.isNull) = true)
                                from Bool.false_ne_true)] at h
                              exact c1_conv toInt toFl dp x r hx h
        · rw [if_neg hts] at h
          rw [if_neg (show ¬((!(success x).error.isNull) = true) from Bool.false_ne_true)] at h
          split at h
          · injection h with h2
            rw [← h2]
            exact exactlyOne_str_err _
          · split at h
            · simp at h
            · next pn hpn =>
                split at h
                · simp at h
                · next value hval =>
                    split at h
                    · next hcond2 =>
                        injection h with h2
                        rw [← h2]
                        rcases primitiveTypeCheck_cases _ _ _ hval with ⟨_, hr⟩ | ⟨a, _, _, hr⟩
                        · rw [hr] at hcond2
                          simp [success, JSVal.isNull] at hcond2
                        · rw [hr]
                          exact exactlyOne_typeError _ _
                    · next hcond2 =>
                        try dsimp only at h
                        by_cases hb : (mn.isSome || mx.isSome) = true
                        · rw [if_pos hb] at h
                          split at h
                          · next hcond3 =>
                              injection h with h2
                              rw [← h2]
                              rcases rangeCheck_cases pn mn mx "number" with hl | hl | hl
                              · rw [hl]
                                exact exactlyOne_rangeError _ _ _ _
                              · rw [hl]
                                exact exactlyOne_rangeError _ _ _ _
                              · rw [hl] at hcond3
                                simp [success, JSVal.isNull] at hcond3
                          · next hcond3 =>
                              exact c1_conv toInt toFl dp x r hx h
                        · rw [if_neg hb] at h
                          rw [if_neg (show ¬((!(success (JSVal.num pn)).error.isNull) = true)
                            from Bool.false_ne_true)] at h
                          exact c1_conv toInt toFl dp x r hx h

lemma c1_list (opt : Bool) (mnL mxL : Option JSNum) (elemV : Validator) (x : JSVal)
    (r : JSResult) (hx : x ≠ .null)
    (h : validateV (.listV opt mnL mxL elemV) x = .ok r) : exactlyOne r := by
  simp only [validateV] at h
  split at h
  · injection h with h2
    rw [← h2]
    exact exactlyOne_success x hx
  · split at h
    · simp at h
    · next value heq =>
        split at h
        · next hcond =>
            injection h with h2
            rw [← h2]
            rcases primitiveTypeCheck_cases x "array" value heq with ⟨_, hr⟩ | ⟨a, _, _, hr⟩
            · rw [hr] at hcond
              simp [success, JSVal.isNull] at hcond
            · rw [hr]
              exact exactlyOne_typeError _ _
        · next hcond0 =>
            split at h
            · rename_i items hcnd
              try dsimp only at h
              by_cases hb : (mnL.isSome || mxL.isSome) = true
              · rw [if_pos hb] at h
                split at h
                · next hcond =>
                    injection h with h2
                    rw [← h2]
                    rcases lengthCheck_cases items mnL mxL "array" with hl | hl | hl
                    · rw [hl]
                      exact exactlyOne_lengthError _ _ _ _
                    · rw [hl]
                      exact exactlyOne_lengthError _ _ _ _
                    · rw [hl] at hcond
                      simp [success, JSVal.isNull] at hcond
                · next hcond =>
                    split at h
                    · simp at h
                    · next res heq3 =>
                        split at h
                        · injection h with h2
                          rw [← h2]
                          exact Or.inl ⟨rfl, fun hh => JSVal.noConfusion hh⟩
                        · injection h with h2
                          rw [← h2]
                          exact exactlyOne_obj_err _
              · rw [if_neg hb] at h
                rw [if_neg (show ¬((!(success (JSVal.arr items)).error.isNull) = true) from
                  Bool.false_ne_true)] at h
                split at h
                · simp at h
                · next res heq3 =>
                    split at h
                    · injection h with h2
                      rw [← h2]
                      exact Or.inl ⟨rfl, fun hh => JSVal.noConfusion hh⟩
                    · injection h with h2
                      rw [← h2]
                      exact exactlyOne_obj_err _
            · injection h with h2
              rw [← h2]
              rcases primitiveTypeCheck_cases x "array" value heq with ⟨_, hr⟩ | ⟨a, _, _, hr⟩
              · rw [hr]
                exact exactlyOne_success x hx
              · rw [hr] at hcond0
                exact absurd rfl hcond0

lemma errsOf_ne_nil_iff (schema : List (String × Validator)) (fields : List (String × JSVal))
    (hch : ∀ p ∈ schema, ∃ r, validateV p.2 (lookupField fields p.1) = .ok r) :
    errsOf schema fields ≠ [] ↔
      ∃ p ∈ schema, ∃ r, validateV p.2 (lookupField fields p.1) = .ok r ∧ r.error ≠ .null := by
  unfold errsOf
  rw [Ne, List.filterMap_eq_nil_iff]
  constructor
  · intro hno
    by_contra hne
    push_neg at hne
    apply hno
    intro p hp
    obtain ⟨r, hr⟩ := hch p hp
    rw [hr]
    dsimp only
    rw [if_pos ((isNull_eq_true_iff _).mpr (hne p hp r hr))]
  · rintro ⟨p, hp, r, hr, hne⟩ hall
    have hthis := hall p hp
    rw [hr] at hthis
    dsimp only at hthis
    rw [(isNull_eq_false_iff _).mpr hne] at hthis
    simp at hthis

lemma valsOf_ne_nil_iff (schema : List (String × Validator)) (fields : List (String × JSVal))
    (hch : ∀ p ∈ schema, ∃ r, validateV p.2 (lookupField fields p.1) = .ok r) :
    valsOf schema fields ≠ [] ↔
      ∃ p ∈ schema, ∃ r, validateV p.2 (lookupField fields p.1) = .ok r ∧ r.error = .null := by
  unfold valsOf
  rw [Ne, List.filterMap_eq_nil_iff]
  constructor
  · intro hno
    by_contra hne
    push_neg at hne
    apply hno
    intro p hp
    obtain ⟨r, hr⟩ := hch p hp
    rw [hr]
    dsimp only
    rw [if_neg]
    intro hk
    exact hne p hp r hr ((isNull_eq_true_iff _).mp hk)
  · rintro ⟨p, hp, r, hr, hnull⟩ hall
    have hthis := hall p hp
    rw [hr] at hthis
    dsimp only at hthis
    rw [(isNull_eq_true_iff _).mpr hnull] at hthis
    simp at hthis

/-- C3: for a well-formed schema mapping and an object payload that passes
the type and key-count checks (and whose child validations all return),
the object validator iterates exactly the schema keys: the result collapses
each of the error mapping and value mapping to null when empty; every entry
of either mapping sits under a schema key and reports that child's error or
value; and every schema key contributes to exactly the mapping matching its
child's outcome. Payload keys outside the schema appear in neither mapping. -/
theorem claim_C3 (opt : Bool) (mnL mxL : Option JSNum)
    (schema : List (String × Validator)) (fields : List (String × JSVal))
    (hnodupS : (schema.map Prod.fst).Nodup)
    (hnodupF : (fields.map Prod.fst).Nodup)
    (hlen : (lengthCheck (fields.map (fun p => JSVal.str p.1)) mnL mxL "object").error = .null)
    (hch : ∀ p ∈ schema, ∃ r, validateV p.2 (lookupField fields p.1) = .ok r) :
    validateV (.objectV opt mnL mxL schema) (.obj fields) =
      .ok { error := if (errsOf schema fields).isEmpty then .null
                     else .obj (errsOf schema fields),
            value := if (valsOf schema fields).isEmpty then .null
                     else .obj (valsOf schema fields) } ∧
    (∀ k e, (k, e) ∈ errsOf schema fields → e ≠ .null ∧ k ∈ schema.map Prod.fst ∧
      ∃ vd r, (k, vd) ∈ schema ∧ validateV vd (lookupField fields k) = .ok r ∧
        r.error = e) ∧
    (∀ k v, (k, v) ∈ valsOf schema fields → k ∈ schema.map Prod.fst ∧
      ∃ vd r, (k, vd) ∈ schema ∧ validateV vd (lookupField fields k) = .ok r ∧
        r.error = .null ∧ r.value = v) ∧
    (∀ p ∈ schema, ∀ r, validateV p.2 (lookupField fields p.1) = .ok r →
      (r.error ≠ .null → (p.1, r.error) ∈ errsOf schema fields) ∧
      (r.error = .null → (p.1, r.value) ∈ valsOf schema fields)) := by
  refine ⟨objectValidate_run opt mnL mxL schema fields hlen hch,
    fun k e hm => errsOf_mem schema fields k e hm,
    fun k v hm => valsOf_mem schema fields k v hm,
    fun p hp r hval => ⟨?_, ?_⟩⟩
  · intro hne
    apply List.mem_filterMap.mpr
    refine ⟨p, hp, ?_⟩
    rw [hval]
    dsimp only
    rw [(isNull_eq_false_iff _).mpr hne]
    rfl
  · intro hnull
    apply List.mem_filterMap.mpr
    refine ⟨p, hp, ?_⟩
    rw [hval]
    dsimp only
    rw [(isNull_eq_true_iff _).mpr hnull]
    rfl

/-- C3 witness: a two-key schema over a payload where key "a" succeeds and
key "b" fails yields the error mapping for "b" and the value mapping for
"a". -/
theorem claim_C3_witness :
    validateV (.objectV false none none
        [("a", .stringV false none none), ("b", .stringV false none none)])
      (.obj [("a", .str "x"), ("b", .num (.finite 1))]) =
      .ok { error := .obj [("b", .str "Expected string but got number")],
            value := .obj [("a", .str "x")] } := by
  have hca : validateV (.stringV false none none) (.str "x") = .ok (success (.str "x")) := by
    simp only [validateV]
    rfl
  have hcb : validateV (.stringV false none none) (.num (.finite 1)) =
      .ok (typeError "string" "number") := by
    simp only [validateV]
    rfl
  have hch : ∀ p ∈ [("a", Validator.stringV false none none),
      ("b", Validator.stringV false none none)],
      ∃ r, validateV p.2 (lookupField [("a", JSVal.str "x"), ("b", JSVal.num (.finite 1))] p.1)
        = .ok r := by
    intro p hp
    rcases List.mem_cons.mp hp with rfl | hp2
    · exact ⟨success (.str "x"), hca⟩
    · rcases List.mem_cons.mp hp2 with rfl | hp3
      · exact ⟨typeError "string" "number", hcb⟩
      · simp at hp3
  have hmain := (claim_C3 false none none
    [("a", .stringV false none none), ("b", .stringV false none none)]
    [("a", JSVal.str "x"), ("b", JSVal.num (.finite 1))]
    (by simp) (by simp) rfl hch).1
  rw [hmain]
  have hla : lookupField [("a", JSVal.str "x"), ("b", JSVal.num (.finite 1))] "a" =
      JSVal.str "x" := rfl
  have hlb : lookupField [("a", JSVal.str "x"), ("b", JSVal.num (.finite 1))] "b" =
      JSVal.num (.finite 1) := rfl
  have he : errsOf [("a", Validator.stringV false none none),
      ("b", Validator.stringV false none none)]
      [("a", JSVal.str "x"), ("b", JSVal.num (.finite 1))] =
      [("b", JSVal.str "Expected string but got number")] := by
    simp [errsOf, List.filterMap_cons, hla, hlb, hca, hcb, success, typeError, JSVal.isNull]
  have hv : valsOf [("a", Validator.stringV false none none),
      ("b", Validator.stringV false none none)]
      [("a", JSVal.str "x"), ("b", JSVal.num (.finite 1))] =
      [("a", JSVal.str "x")] := by
    simp [valsOf, List.filterMap_cons, hla, hlb, hca, hcb, success, typeError, JSVal.isNull]
  rw [he, hv]
  rfl

/-- C1 (amended): for every non-object validator and every input other than
null, a returned Result has exactly one of error and value non-null; for
object-schema validation past its type and key-count checks (with all child
validations returning), error is non-null iff some schema key's child
fails and value is non-null iff some schema key's child succeeds — so a
payload with both failing and succeeding keys carries both, and an empty
schema carries neither. -/
theorem claim_C1 :
    (∀ (v : Validator) (x : JSVal) (r : JSResult), x ≠ .null → nonObject v →
      validateV v x = .ok r → exactlyOne r) ∧
    (∀ (opt : Bool) (mnL mxL : Option JSNum) (schema : List (String × Validator))
      (fields : List (String × JSVal)),
      (lengthCheck (fields.map (fun p => JSVal.str p.1)) mnL mxL "object").error = .null →
      (∀ p ∈ schema, ∃ r, validateV p.2 (lookupField fields p.1) = .ok r) →
      ∀ r, validateV (.objectV opt mnL mxL schema) (.obj fields) = .ok r →
        ((r.error ≠ .null ↔ ∃ p ∈ schema, ∃ cr,
            validateV p.2 (lookupField fields p.1) = .ok cr ∧ cr.error ≠ .null) ∧
         (r.value ≠ .null ↔ ∃ p ∈ schema, ∃ cr,
            validateV p.2 (lookupField fields p.1) = .ok cr ∧ cr.error = .null))) := by
  constructor
  · intro v x r hx hno h
    cases v with
    | prim t opt =>
        simp only [validateV] at h
        exact c1_prim t opt x r hx h
    | anyV opt aun =>
        simp only [validateV] at h
        exact c1_any opt aun x r hx h
    | numberV opt mn mx ti tf dp =>
        simp only [validateV] at h
        exact c1_number opt mn mx ti tf dp x r hx h
    | stringV opt a b =>
        simp only [validateV] at h
        exact c1_string opt a b x r hx h
    | objectV opt a b schema => exact hno.elim
    | listV opt a b elemV => exact c1_list opt a b elemV x r hx h
  · intro opt mnL mxL schema fields hlen hch r h
    rw [objectValidate_run opt mnL mxL schema fields hlen hch] at h
    injection h with h2
    rw [← h2]
    constructor
    · by_cases hemp : (errsOf schema fields).isEmpty = true
      · rw [if_pos hemp]
        apply iff_of_false (fun hh => hh rfl)
        intro hex
        have hne := (errsOf_ne_nil_iff schema fields hch).mpr hex
        rw [List.isEmpty_iff] at hemp
        exact hne hemp
      · rw [if_neg hemp]
        apply iff_of_true (fun hh => JSVal.noConfusion hh)
        apply (errsOf_ne_nil_iff schema fields hch).mp
        intro hnil
        exact hemp (by rw [hnil]; rfl)
    · by_cases hemp : (valsOf schema fields).isEmpty = true
      · rw [if_pos hemp]
        apply iff_of_false (fun hh => hh rfl)
        intro hex
        have hne := (valsOf_ne_nil_iff schema fields hch).mpr hex
        rw [List.isEmpty_iff] at hemp
        exact hne hemp
      · rw [if_neg hemp]
        apply iff_of_true (fun hh => JSVal.noConfusion hh)
        apply (valsOf_ne_nil_iff schema fields hch).mp
        intro hnil
        exact hemp (by rw [hnil]; rfl)

/-- C1 counterexample: on a payload where schema key "p" succeeds and key
"q" fails, the object validator's Result carries both a non-null error and
a non-null value, contradicting the claimed exactly-one invariant. -/
theorem claim_C1_counterexample :
    validateV (.objectV false none none
        [("p", .stringV false none none), ("q", .numberV false none none false false none)])
      (.obj [("p", .str "hi"), ("q", .str "zz")]) =
      .ok { error := .obj [("q", .str "Expected number but got string")],
            value := .obj [("p", .str "hi")] } ∧
    (JSVal.obj [("q", .str "Expected number but got string")] ≠ .null) ∧
    (JSVal.obj [("p", .str "hi")] ≠ .null) := by
  refine ⟨?_, fun hh => JSVal.noConfusion hh, fun hh => JSVal.noConfusion hh⟩
  simp only [validateV, runSchema]
  rfl

/-- C1 witness: the exactly-one property at a concrete leaf success, and
the object characterization at a concrete single-key schema whose child
succeeds. -/
theorem claim_C1_witness :
    exactlyOne (success (.str "ok")) ∧
    (((JSResult.mk JSVal.null (.obj [("k", .str "v")])).error ≠ .null ↔
        ∃ p ∈ [("k", Validator.stringV false none none)], ∃ cr,
          validateV p.2 (lookupField [("k", JSVal.str "v")] p.1) = .ok cr ∧
            cr.error ≠ .null) ∧
     ((JSResult.mk JSVal.null (.obj [("k", .str "v")])).value ≠ .null ↔
        ∃ p ∈ [("k", Validator.stringV false none none)], ∃ cr,
          validateV p.2 (lookupField [("k", JSVal.str "v")] p.1) = .ok cr ∧
            cr.error = .null)) := by
  constructor
  · exact claim_C1.1 (.stringV false none none) (.str "ok") (success (.str "ok"))
      (fun hh => JSVal.noConfusion hh) trivial (by simp only [validateV]; rfl)
  · exact claim_C1.2 false none none [("k", .stringV false none none)]
      [("k", JSVal.str "v")] rfl
      (by
        intro p hp
        rcases List.mem_cons.mp hp with rfl | hp2
        · exact ⟨success (.str "v"), by simp only [validateV]; rfl⟩
        · simp at hp2)
      (JSResult.mk JSVal.null (.obj [("k", .str "v")]))
      (by simp only [validateV, runSchema]; rfl)
